import Mathlib

/-!
Verification development for the GROMACS nbnxn reference pairwise kernel
(inner cluster-pair loop) and the selection comparison method
(`sm_compare.cpp`), shallowly embedded in Lean 4.

The kernel fragment is parameterised by its compile-time flags
(`CHECK_EXCLS`, `CALC_COULOMB`, `CALC_ENERGIES`, `HALF_LJ`, `CALC_COUL_RF`);
`EXCL_FORCES` is derived as in the source
(`#if defined CHECK_EXCLS && defined CALC_COULOMB`).
Floating-point `real` values are modelled as rationals, and the external
`gmx_invsqrt` primitive is an explicit function parameter.  The
`ENERGY_GROUPS` variant (which differs only in how the energy accumulator is
indexed) and the diagnostic `COUNT_PAIRS` counter are not modelled.
-/

namespace Nbnxn

/-- Compile-time configuration flags of one kernel specialisation. -/
structure KFlags where
  checkExcls : Bool
  calcCoulomb : Bool
  calcEnergies : Bool
  halfLJ : Bool
  calcCoulRF : Bool
  deriving DecidableEq

/-- `EXCL_FORCES` is defined exactly when both `CHECK_EXCLS` and
`CALC_COULOMB` are defined. -/
def exclForces (fl : KFlags) : Bool :=
  fl.checkExcls && fl.calcCoulomb

/-- Read-only kernel inputs: cluster geometry, interaction constants and
the particle SoA buffers (positions `x`, LJ types `type`, charges `q`,
the force-field parameter table `nbfp`, the i-cluster local copies
`xi`/`qi`, and the tabulated Ewald-correction table `tab_coul_FDV0`). -/
structure KParams where
  UNROLLI : ℕ
  UNROLLJ : ℕ
  rcut2 : ℚ
  k_rf : ℚ
  k_rf2 : ℚ
  c_rf : ℚ
  ntype2 : ℕ
  nbfp : ℕ → ℚ
  type : ℕ → ℕ
  q : ℕ → ℚ
  x : ℕ → ℚ
  xi : ℕ → ℚ
  qi : ℕ → ℚ
  invsqrt : ℚ → ℚ
  tabq_scale : ℚ
  halfsp : ℚ
  tab_coul_FDV0 : ℤ → ℚ

/-- Mutable kernel state: the i-cluster local force accumulator `fi`,
the global force buffer `f`, and the energy accumulators. -/
structure KState where
  fi : ℕ → ℚ
  f : ℕ → ℚ
  Vvdw_ci : ℚ
  Vc_ci : ℚ

/-- C-style truncation toward zero of a rational, as in the cast
`ri = (int)rs`. -/
def ctrunc (x : ℚ) : ℤ :=
  if x < 0 then ⌈x⌉ else ⌊x⌋

/-- Displacement component `k` (0,1,2) between i-particle `i` of the
i-cluster and j-particle `j` of cluster `cj`:
`xi[i*3+k] - x[aj*3+k]` with `aj = cj*UNROLLJ + j`. -/
def dOf (p : KParams) (cj i j k : ℕ) : ℚ :=
  p.xi (i * 3 + k) - p.x ((cj * p.UNROLLJ + j) * 3 + k)

/-- Squared distance `rsq = dx*dx + dy*dy + dz*dz` of a candidate pair. -/
def rsqOf (p : KParams) (cj i j : ℕ) : ℚ :=
  dOf p cj i j 0 * dOf p cj i j 0 + dOf p cj i j 1 * dOf p cj i j 1 +
    dOf p cj i j 2 * dOf p cj i j 2

/-- Exclusion-mask bit of pair `(i,j)`:
`(l_cj[cjind].excl >> (i*UNROLLI + j)) & 1`. -/
def bitOf (p : KParams) (excl i j : ℕ) : ℕ :=
  (excl >>> (i * p.UNROLLI + j)) &&& 1

/-- The `interact` flag: the mask bit under `CHECK_EXCLS`, otherwise the
constant 1 (`#define interact 1`). -/
def interactOf (fl : KFlags) (p : KParams) (excl i j : ℕ) : ℚ :=
  if fl.checkExcls then (bitOf p excl i j : ℚ) else 1

/-- Whether the i-particle receives Lennard-Jones terms: always, except in
`HALF_LJ` mode where only `i < UNROLLI/2` does. -/
def ljActive (fl : KFlags) (p : KParams) (i : ℕ) : Bool :=
  !fl.halfLJ || decide (i < p.UNROLLI / 2)

/-- The per-pair Coulomb force scalar `fcoul`: in the reaction-field case
`qq*(interact*rinv*rinvsq - k_rf2)`; in the tabulated case
`(interact*rinvsq - fexcl)` scaled by `qq*rinv` (the source computes
`fcoul = interact*rinvsq - fexcl` and then `fcoul *= qq*rinv`). -/
def fcoulOf (fl : KFlags) (p : KParams) (cj _ci i j : ℕ) (interact : ℚ) : ℚ :=
  let aj := cj * p.UNROLLJ + j
  let rsq := rsqOf p cj i j
  let rinv := p.invsqrt rsq
  let rinvsq := rinv * rinv
  let qq := p.qi i * p.q aj
  if fl.calcCoulRF then
    qq * (interact * rinv * rinvsq - p.k_rf2)
  else
    let rs := rsq * rinv * p.tabq_scale
    let ri := ctrunc rs
    let frac := rs - (ri : ℚ)
    let fexcl := p.tab_coul_FDV0 (ri * 4) + frac * p.tab_coul_FDV0 (ri * 4 + 1)
    (interact * rinvsq - fexcl) * (qq * rinv)

/-- The per-pair Coulomb energy `vcoul`: reaction-field
`qq*(interact*rinv + k_rf*rsq - c_rf)`, or the tabulated form. -/
def vcoulOf (fl : KFlags) (p : KParams) (cj _ci i j : ℕ) (interact : ℚ) : ℚ :=
  let aj := cj * p.UNROLLJ + j
  let rsq := rsqOf p cj i j
  let rinv := p.invsqrt rsq
  let qq := p.qi i * p.q aj
  if fl.calcCoulRF then
    qq * (interact * rinv + p.k_rf * rsq - p.c_rf)
  else
    let rs := rsq * rinv * p.tabq_scale
    let ri := ctrunc rs
    let frac := rs - (ri : ℚ)
    let fexcl := p.tab_coul_FDV0 (ri * 4) + frac * p.tab_coul_FDV0 (ri * 4 + 1)
    qq * (interact * rinv -
      (p.tab_coul_FDV0 (ri * 4 + 2) -
        p.halfsp * frac * (p.tab_coul_FDV0 (ri * 4) + fexcl)))

/-- The pair's `Vvdw6` value: `nbfp[type_i_off+type[aj]*2]*rinvsix` with
`rinvsix = interact*rinvsq*rinvsq*rinvsq`, inside the (possibly `HALF_LJ`
restricted) LJ block; outside it the variable keeps its initial value 0. -/
def Vvdw6Of (fl : KFlags) (p : KParams) (cj ci i j : ℕ) (interact : ℚ) : ℚ :=
  let aj := cj * p.UNROLLJ + j
  let rinv := p.invsqrt (rsqOf p cj i j)
  let rinvsq := rinv * rinv
  let rinvsix := interact * rinvsq * rinvsq * rinvsq
  if ljActive fl p i then
    p.nbfp (p.type (ci * p.UNROLLI + i) * p.ntype2 + p.type aj * 2) * rinvsix
  else 0

/-- The pair's `Vvdw12` value:
`nbfp[type_i_off+type[aj]*2+1]*rinvsix*rinvsix` inside the LJ block,
0 outside it. -/
def Vvdw12Of (fl : KFlags) (p : KParams) (cj ci i j : ℕ) (interact : ℚ) : ℚ :=
  let aj := cj * p.UNROLLJ + j
  let rinv := p.invsqrt (rsqOf p cj i j)
  let rinvsq := rinv * rinv
  let rinvsix := interact * rinvsq * rinvsq * rinvsq
  if ljActive fl p i then
    p.nbfp (p.type (ci * p.UNROLLI + i) * p.ntype2 + p.type aj * 2 + 1) *
      rinvsix * rinvsix
  else 0

/-- The scalar multiplying the displacement components in the force update:
`(Vvdw12 - Vvdw6)*rinvsq + fcoul` (Coulomb with LJ), `fcoul` alone
(second half in `HALF_LJ` mode), or `(Vvdw12 - Vvdw6)*rinvsq` without
Coulomb. -/
def fscalOf (fl : KFlags) (p : KParams) (cj ci i j : ℕ) (interact : ℚ) : ℚ :=
  let rinv := p.invsqrt (rsqOf p cj i j)
  let rinvsq := rinv * rinv
  if fl.calcCoulomb then
    if ljActive fl p i then
      (Vvdw12Of fl p cj ci i j interact - Vvdw6Of fl p cj ci i j interact) *
        rinvsq + fcoulOf fl p cj ci i j interact
    else fcoulOf fl p cj ci i j interact
  else
    (Vvdw12Of fl p cj ci i j interact - Vvdw6Of fl p cj ci i j interact) * rinvsq

/-- Evaluation of one candidate pair that has passed all the skip checks:
lines 108-216 of the kernel fragment (distance, LJ, Coulomb, energy
accumulation and the symmetric force update). -/
def evalPair (fl : KFlags) (p : KParams) (cj ci i j : ℕ) (interact : ℚ)
    (st : KState) : KState :=
  let aj := cj * p.UNROLLJ + j
  let Vvdw_ci' :=
    if fl.calcEnergies && ljActive fl p i then
      st.Vvdw_ci +
        (Vvdw12Of fl p cj ci i j interact / 12 -
          Vvdw6Of fl p cj ci i j interact / 6)
    else st.Vvdw_ci
  let Vc_ci' :=
    if fl.calcCoulomb && fl.calcEnergies then
      st.Vc_ci + vcoulOf fl p cj ci i j interact
    else st.Vc_ci
  let fsc := fscalOf fl p cj ci i j interact
  let fx := fsc * dOf p cj i j 0
  let fy := fsc * dOf p cj i j 1
  let fz := fsc * dOf p cj i j 2
  let fi' :=
    Function.update
      (Function.update
        (Function.update st.fi (i * 3 + 0) (st.fi (i * 3 + 0) + fx))
        (i * 3 + 1) (st.fi (i * 3 + 1) + fy))
      (i * 3 + 2) (st.fi (i * 3 + 2) + fz)
  let f' :=
    Function.update
      (Function.update
        (Function.update st.f (aj * 3 + 0) (st.f (aj * 3 + 0) - fx))
        (aj * 3 + 1) (st.f (aj * 3 + 1) - fy))
      (aj * 3 + 2) (st.f (aj * 3 + 2) - fz)
  ⟨fi', f', Vvdw_ci', Vc_ci'⟩

/-- One iteration of the inner pair loop: the skip logic of lines 87-126
(exclusion filtering, diagonal suppression, cutoff truncation and the
near-zero guard) wrapped around `evalPair`. -/
def pairBody (fl : KFlags) (p : KParams) (cj ci_sh excl ci i j : ℕ)
    (st : KState) : KState :=
  if fl.checkExcls = true ∧ exclForces fl = false ∧ bitOf p excl i j = 0 then
    st
  else if fl.checkExcls = true ∧ exclForces fl = true ∧ cj = ci_sh ∧ j ≤ i then
    st
  else if p.rcut2 ≤ rsqOf p cj i j then
    st
  else if exclForces fl = true ∧ rsqOf p cj i j < 1 / 1000000000000 then
    st
  else
    evalPair fl p cj ci i j (interactOf fl p excl i j) st

/-- The pair `(i,j)` reaches `evalPair` (no skip branch is taken). -/
def evaluatesPair (fl : KFlags) (p : KParams) (cj ci_sh excl i j : ℕ) : Prop :=
  ¬ (fl.checkExcls = true ∧ exclForces fl = false ∧ bitOf p excl i j = 0) ∧
  ¬ (fl.checkExcls = true ∧ exclForces fl = true ∧ cj = ci_sh ∧ j ≤ i) ∧
  rsqOf p cj i j < p.rcut2 ∧
  ¬ (exclForces fl = true ∧ rsqOf p cj i j < 1 / 1000000000000)

instance (fl : KFlags) (p : KParams) (cj ci_sh excl i j : ℕ) :
    Decidable (evaluatesPair fl p cj ci_sh excl i j) := by
  unfold evaluatesPair
  infer_instance

/-- The inner `for (j=0; j<UNROLLJ; j++)` loop for a fixed i-particle. -/
def innerLoopJ (fl : KFlags) (p : KParams) (cj ci_sh excl ci i : ℕ)
    (st : KState) : KState :=
  (List.range p.UNROLLJ).foldl (fun s j => pairBody fl p cj ci_sh excl ci i j s) st

/-- The full cluster-pair evaluation: the `for (i=0; i<UNROLLI; i++)` loop
over `innerLoopJ`. -/
def clusterPairKernel (fl : KFlags) (p : KParams) (cj ci_sh excl ci : ℕ)
    (st : KState) : KState :=
  (List.range p.UNROLLI).foldl (fun s i => innerLoopJ fl p cj ci_sh excl ci i s) st

theorem pairBody_eq_ite (fl : KFlags) (p : KParams) (cj ci_sh excl ci i j : ℕ)
    (st : KState) :
    pairBody fl p cj ci_sh excl ci i j st =
      if evaluatesPair fl p cj ci_sh excl i j then
        evalPair fl p cj ci i j (interactOf fl p excl i j) st
      else st := by
  unfold pairBody
  by_cases h1 : fl.checkExcls = true ∧ exclForces fl = false ∧ bitOf p excl i j = 0
  · rw [if_pos h1,
      if_neg (fun hE : evaluatesPair fl p cj ci_sh excl i j => hE.1 h1)]
  · rw [if_neg h1]
    by_cases h2 : fl.checkExcls = true ∧ exclForces fl = true ∧ cj = ci_sh ∧ j ≤ i
    · rw [if_pos h2,
        if_neg (fun hE : evaluatesPair fl p cj ci_sh excl i j => hE.2.1 h2)]
    · rw [if_neg h2]
      by_cases h3 : p.rcut2 ≤ rsqOf p cj i j
      · rw [if_pos h3,
          if_neg (fun hE : evaluatesPair fl p cj ci_sh excl i j =>
            absurd hE.2.2.1 (not_lt.mpr h3))]
      · rw [if_neg h3]
        by_cases h4 : exclForces fl = true ∧ rsqOf p cj i j < 1 / 1000000000000
        · rw [if_pos h4,
            if_neg (fun hE : evaluatesPair fl p cj ci_sh excl i j => hE.2.2.2 h4)]
        · rw [if_neg h4, if_pos ⟨h1, h2, lt_of_not_le h3, h4⟩]

theorem evalPair_fi_apply (fl : KFlags) (p : KParams) (cj ci i j : ℕ)
    (interact : ℚ) (st : KState) (k : ℕ) (hk : k < 3) :
    (evalPair fl p cj ci i j interact st).fi (i * 3 + k) =
      st.fi (i * 3 + k) +
        fscalOf fl p cj ci i j interact * dOf p cj i j k := by
  unfold evalPair
  interval_cases k <;>
    simp only [] <;>
    first
    | rw [Function.update_noteq (by omega), Function.update_noteq (by omega),
        Function.update_same]
    | rw [Function.update_noteq (by omega), Function.update_same]
    | rw [Function.update_same]

theorem evalPair_f_apply (fl : KFlags) (p : KParams) (cj ci i j : ℕ)
    (interact : ℚ) (st : KState) (k : ℕ) (hk : k < 3) :
    (evalPair fl p cj ci i j interact st).f ((cj * p.UNROLLJ + j) * 3 + k) =
      st.f ((cj * p.UNROLLJ + j) * 3 + k) -
        fscalOf fl p cj ci i j interact * dOf p cj i j k := by
  unfold evalPair
  interval_cases k <;>
    simp only [] <;>
    first
    | rw [Function.update_noteq (by omega), Function.update_noteq (by omega),
        Function.update_same]
    | rw [Function.update_noteq (by omega), Function.update_same]
    | rw [Function.update_same]

theorem evalPair_Vvdw_ci (fl : KFlags) (p : KParams) (cj ci i j : ℕ)
    (interact : ℚ) (st : KState) :
    (evalPair fl p cj ci i j interact st).Vvdw_ci =
      if fl.calcEnergies && ljActive fl p i then
        st.Vvdw_ci +
          (Vvdw12Of fl p cj ci i j interact / 12 -
            Vvdw6Of fl p cj ci i j interact / 6)
      else st.Vvdw_ci := rfl

theorem evalPair_Vc_ci (fl : KFlags) (p : KParams) (cj ci i j : ℕ)
    (interact : ℚ) (st : KState) :
    (evalPair fl p cj ci i j interact st).Vc_ci =
      if fl.calcCoulomb && fl.calcEnergies then
        st.Vc_ci + vcoulOf fl p cj ci i j interact
      else st.Vc_ci := rfl

/-- Flags of the reaction-field Coulomb kernel without exclusion checking
(`CALC_COULOMB`, `CALC_COUL_RF`; no `CHECK_EXCLS`, `CALC_ENERGIES`,
`HALF_LJ`). -/
def flagsRFNoExcl : KFlags :=
  ⟨false, true, false, false, true⟩

/-- Flags of the reaction-field Coulomb kernel with exclusion checking and
energies (`CHECK_EXCLS`, `CALC_COULOMB`, `CALC_ENERGIES`, `CALC_COUL_RF`),
so `EXCL_FORCES` is in effect. -/
def flagsRFExclEner : KFlags :=
  ⟨true, true, true, false, true⟩

/-- All-zero kernel state (accumulators zero-initialized). -/
def zeroState : KState :=
  ⟨fun _ => 0, fun _ => 0, 0, 0⟩

/-- A tiny concrete input: 1-particle clusters, two particles
(particle 0 at the origin in cluster 0, particle 1 at `(1/2,0,0)` in
cluster 1), charges `q0 = 1`, `q1 = -1`, zero LJ parameters, cutoff
`rcut2 = 1`, zero reaction-field constants and an inverse square root
that is exact at the only squared distance that occurs, `1/4`. -/
def pPair : KParams where
  UNROLLI := 1
  UNROLLJ := 1
  rcut2 := 1
  k_rf := 0
  k_rf2 := 0
  c_rf := 0
  ntype2 := 2
  nbfp := fun _ => 0
  type := fun _ => 0
  q := fun n => if n = 0 then 1 else -1
  x := fun n => if n = 3 then 1 / 2 else 0
  xi := fun _ => 0
  qi := fun _ => 1
  invsqrt := fun r => if r = 1 / 4 then 2 else 0
  tabq_scale := 0
  halfsp := 0
  tab_coul_FDV0 := fun _ => 0

/-- Like `pPair` but with both particles at the origin (`rsq = 0`) and
`rcut2 = 0`, used to exercise the cutoff skip branch. -/
def pCoincident : KParams :=
  { pPair with rcut2 := 0, x := fun _ => 0 }

/-- Like `pPair` but with both particles at the origin (`rsq = 0`),
used to exercise the near-zero skip branch. -/
def pSelf : KParams :=
  { pPair with x := fun _ => 0 }

theorem pCoincident_cutoff : pCoincident.rcut2 ≤ rsqOf pCoincident 1 0 0 := by
  norm_num [rsqOf, dOf, pCoincident, pPair]

theorem pPair_rsq : rsqOf pPair 1 0 0 = 1 / 4 := by
  norm_num [rsqOf, dOf, pPair]

theorem pPair_in_range : rsqOf pPair 1 0 0 < pPair.rcut2 := by
  rw [pPair_rsq]; norm_num [pPair]

theorem pPair_not_tiny : 1 / 1000000000000 ≤ rsqOf pPair 1 0 0 := by
  rw [pPair_rsq]; norm_num

theorem pSelf_rsq_small : rsqOf pSelf 1 0 0 < 1 / 1000000000000 := by
  norm_num [rsqOf, dOf, pSelf, pPair]

/-- C1: for every candidate particle pair (i,j) in a cluster pair whose
squared distance `rsq` satisfies `rsq >= rcut2`, the kernel skips the pair,
so the force buffers and the van der Waals and Coulomb energy accumulators
are unchanged by that pair. -/
theorem C1_cutoff_exactness (fl : KFlags) (p : KParams)
    (cj ci_sh excl ci i j : ℕ) (st : KState)
    (h : p.rcut2 ≤ rsqOf p cj i j) :
    pairBody fl p cj ci_sh excl ci i j st = st := by
  rw [pairBody_eq_ite,
    if_neg (fun hE : evaluatesPair fl p cj ci_sh excl i j =>
      absurd hE.2.2.1 (not_lt.mpr h))]

theorem C1_cutoff_exactness_witness :
    pCoincident.rcut2 ≤ rsqOf pCoincident 1 0 0 ∧
      pairBody flagsRFNoExcl pCoincident 1 0 0 0 0 0 zeroState = zeroState :=
  ⟨pCoincident_cutoff,
    C1_cutoff_exactness flagsRFNoExcl pCoincident 1 0 0 0 0 0 zeroState
      pCoincident_cutoff⟩

/-- C2: for every candidate pair (i,j), the 3-vector added to the i-cluster
local force accumulator `fi` is exactly the negation of the 3-vector change
of the j-particle's slot in the global force buffer `f` (Newton's third
law); for skipped pairs both changes are zero. -/
theorem C2_newton_third_law (fl : KFlags) (p : KParams)
    (cj ci_sh excl ci i j : ℕ) (st : KState) :
    ((pairBody fl p cj ci_sh excl ci i j st).fi (i * 3 + 0) -
        st.fi (i * 3 + 0) =
      -((pairBody fl p cj ci_sh excl ci i j st).f
          ((cj * p.UNROLLJ + j) * 3 + 0) -
        st.f ((cj * p.UNROLLJ + j) * 3 + 0))) ∧
    ((pairBody fl p cj ci_sh excl ci i j st).fi (i * 3 + 1) -
        st.fi (i * 3 + 1) =
      -((pairBody fl p cj ci_sh excl ci i j st).f
          ((cj * p.UNROLLJ + j) * 3 + 1) -
        st.f ((cj * p.UNROLLJ + j) * 3 + 1))) ∧
    ((pairBody fl p cj ci_sh excl ci i j st).fi (i * 3 + 2) -
        st.fi (i * 3 + 2) =
      -((pairBody fl p cj ci_sh excl ci i j st).f
          ((cj * p.UNROLLJ + j) * 3 + 2) -
        st.f ((cj * p.UNROLLJ + j) * 3 + 2))) := by
  rw [pairBody_eq_ite]
  by_cases h : evaluatesPair fl p cj ci_sh excl i j
  · rw [if_pos h]
    refine ⟨?_, ?_, ?_⟩ <;>
      rw [evalPair_fi_apply fl p cj ci i j _ st _ (by omega),
        evalPair_f_apply fl p cj ci i j _ st _ (by omega)] <;>
      ring
  · rw [if_neg h]
    exact ⟨by ring, by ring, by ring⟩

/-- C3: in a kernel variant where `EXCL_FORCES` is in effect, every
candidate pair of a cluster pair with `cj == ci_sh` and `j <= i` is
skipped, so the cluster-against-itself block only evaluates its strict
upper triangle. -/
theorem C3_diagonal_suppression (fl : KFlags) (p : KParams)
    (cj ci_sh excl ci i j : ℕ) (st : KState)
    (hE : exclForces fl = true) (hcj : cj = ci_sh) (hji : j ≤ i) :
    pairBody fl p cj ci_sh excl ci i j st = st := by
  have hc : fl.checkExcls = true := by
    have h2 : fl.checkExcls = true ∧ fl.calcCoulomb = true := by
      simpa [exclForces] using hE
    exact h2.1
  rw [pairBody_eq_ite,
    if_neg (fun hEv : evaluatesPair fl p cj ci_sh excl i j =>
      hEv.2.1 ⟨hc, hE, hcj, hji⟩)]

theorem C3_diagonal_suppression_witness :
    exclForces flagsRFExclEner = true ∧ (0 : ℕ) = 0 ∧ (0 : ℕ) ≤ 0 ∧
      pairBody flagsRFExclEner pPair 0 0 1 0 0 0 zeroState = zeroState :=
  ⟨by decide, rfl, le_refl 0,
    C3_diagonal_suppression flagsRFExclEner pPair 0 0 1 0 0 0 zeroState
      (by decide) rfl (le_refl 0)⟩

theorem pairBody_excluded_modeB (fl : KFlags) (p : KParams)
    (cj ci_sh excl ci i j : ℕ) (st : KState)
    (hE : exclForces fl = true) (hbit : bitOf p excl i j = 0)
    (hdiag : ¬(cj = ci_sh ∧ j ≤ i)) (hin : rsqOf p cj i j < p.rcut2)
    (heps : 1 / 1000000000000 ≤ rsqOf p cj i j) :
    pairBody fl p cj ci_sh excl ci i j st = evalPair fl p cj ci i j 0 st := by
  have hc : fl.checkExcls = true := by
    have h2 : fl.checkExcls = true ∧ fl.calcCoulomb = true := by
      simpa [exclForces] using hE
    exact h2.1
  have hi : interactOf fl p excl i j = 0 := by
    simp [interactOf, hc, hbit]
  have hEv : evaluatesPair fl p cj ci_sh excl i j := by
    refine ⟨?_, ?_, hin, ?_⟩
    · rintro ⟨-, hf, -⟩
      rw [hE] at hf
      exact absurd hf (by decide)
    · rintro ⟨-, -, hc1, hj⟩
      exact hdiag ⟨hc1, hj⟩
    · rintro ⟨-, hlt⟩
      exact absurd hlt (not_lt.mpr heps)
  rw [pairBody_eq_ite, if_pos hEv, hi]

/-- C4: when `EXCL_FORCES` is not in effect (mode A), each pair whose
exclusion-mask bit `(i*UNROLLI+j)` is 0 is skipped outright, leaving the
state unchanged regardless of its distance; when `EXCL_FORCES` is in effect
(mode B), each in-range, non-diagonal excluded pair is evaluated with
`interact = 0` substituted into the force/energy formulas. -/
theorem C4_mode_selection (fl : KFlags) (p : KParams)
    (cj ci_sh excl ci i j : ℕ) (st : KState) :
    (fl.checkExcls = true → exclForces fl = false → bitOf p excl i j = 0 →
      pairBody fl p cj ci_sh excl ci i j st = st) ∧
    (exclForces fl = true → bitOf p excl i j = 0 → ¬(cj = ci_sh ∧ j ≤ i) →
      rsqOf p cj i j < p.rcut2 → 1 / 1000000000000 ≤ rsqOf p cj i j →
      pairBody fl p cj ci_sh excl ci i j st = evalPair fl p cj ci i j 0 st) := by
  constructor
  · intro h1 h2 h3
    rw [pairBody_eq_ite,
      if_neg (fun hEv : evaluatesPair fl p cj ci_sh excl i j =>
        hEv.1 ⟨h1, h2, h3⟩)]
  · intro hE hbit hdiag hin heps
    exact pairBody_excluded_modeB fl p cj ci_sh excl ci i j st hE hbit hdiag
      hin heps

theorem C4_mode_selection_witness :
    (pairBody ⟨true, false, false, false, true⟩ pPair 1 0 0 0 0 0 zeroState =
      zeroState) ∧
      pairBody flagsRFExclEner pPair 1 0 0 0 0 0 zeroState =
        evalPair flagsRFExclEner pPair 1 0 0 0 0 zeroState :=
  ⟨(C4_mode_selection ⟨true, false, false, false, true⟩ pPair 1 0 0 0 0 0
      zeroState).1 rfl (by decide) (by decide),
   (C4_mode_selection flagsRFExclEner pPair 1 0 0 0 0 0 zeroState).2
      (by decide) (by decide) (by decide) pPair_in_range pPair_not_tiny⟩

/-- C5: when `EXCL_FORCES` is in effect, every pair with squared distance
`rsq < 1e-12` leaves the kernel state unchanged: the pair is skipped before
the reciprocal square root is taken, so a coincident excluded self-pair
contributes nothing and cannot overflow `rinvsix`. -/
theorem C5_nearzero_guard (fl : KFlags) (p : KParams)
    (cj ci_sh excl ci i j : ℕ) (st : KState)
    (hE : exclForces fl = true)
    (h : rsqOf p cj i j < 1 / 1000000000000) :
    pairBody fl p cj ci_sh excl ci i j st = st := by
  rw [pairBody_eq_ite]
  by_cases hcut : rsqOf p cj i j < p.rcut2
  · exact if_neg (fun hEv : evaluatesPair fl p cj ci_sh excl i j =>
      hEv.2.2.2 ⟨hE, h⟩)
  · exact if_neg (fun hEv : evaluatesPair fl p cj ci_sh excl i j =>
      hcut hEv.2.2.1)

theorem C5_nearzero_guard_witness :
    exclForces flagsRFExclEner = true ∧
      rsqOf pSelf 1 0 0 < 1 / 1000000000000 ∧
      pairBody flagsRFExclEner pSelf 1 0 0 0 0 0 zeroState = zeroState :=
  ⟨by decide, pSelf_rsq_small,
    C5_nearzero_guard flagsRFExclEner pSelf 1 0 0 0 0 0
      zeroState (by decide) pSelf_rsq_small⟩

/-- Flags of the half-LJ reaction-field Coulomb kernel (`CALC_COULOMB`,
`HALF_LJ`, `CALC_COUL_RF`; no `CHECK_EXCLS`, no `CALC_ENERGIES`). -/
def flagsHalfLJ : KFlags :=
  ⟨false, true, false, true, true⟩

/-- C8: in `HALF_LJ` mode, for every pair whose i-particle lies in the
second half of the i-cluster (`UNROLLI/2 <= i`), `Vvdw6` and `Vvdw12` are
exactly zero, the van der Waals energy accumulator is unchanged, and the
force added to `fi` is the Coulomb term `fcoul` times the displacement
alone (zero if the pair is skipped). -/
theorem C8_half_lj_invariant (fl : KFlags) (p : KParams)
    (cj ci_sh excl ci i j : ℕ) (st : KState)
    (hH : fl.halfLJ = true) (hC : fl.calcCoulomb = true)
    (hi : p.UNROLLI / 2 ≤ i) :
    Vvdw6Of fl p cj ci i j (interactOf fl p excl i j) = 0 ∧
    Vvdw12Of fl p cj ci i j (interactOf fl p excl i j) = 0 ∧
    (pairBody fl p cj ci_sh excl ci i j st).Vvdw_ci = st.Vvdw_ci ∧
    (∀ k, k < 3 →
      (pairBody fl p cj ci_sh excl ci i j st).fi (i * 3 + k) =
        st.fi (i * 3 + k) +
          (if evaluatesPair fl p cj ci_sh excl i j then
              fcoulOf fl p cj ci i j (interactOf fl p excl i j) *
                dOf p cj i j k
            else 0)) := by
  have hi' : ¬ (i < p.UNROLLI / 2) := Nat.not_lt.mpr hi
  have hlj : ljActive fl p i = false := by
    simp [ljActive, hH, hi']
  refine ⟨by simp [Vvdw6Of, hlj], by simp [Vvdw12Of, hlj], ?_, ?_⟩
  · rw [pairBody_eq_ite]
    by_cases h : evaluatesPair fl p cj ci_sh excl i j
    · rw [if_pos h, evalPair_Vvdw_ci]
      simp [hlj]
    · rw [if_neg h]
  · intro k hk
    rw [pairBody_eq_ite]
    by_cases h : evaluatesPair fl p cj ci_sh excl i j
    · rw [if_pos h, if_pos h,
        evalPair_fi_apply fl p cj ci i j (interactOf fl p excl i j) st k hk]
      congr 1
      simp [fscalOf, hC, hlj]
    · rw [if_neg h, if_neg h, add_zero]

theorem C8_half_lj_invariant_witness :
    flagsHalfLJ.halfLJ = true ∧ flagsHalfLJ.calcCoulomb = true ∧
      pPair.UNROLLI / 2 ≤ 0 ∧
      Vvdw6Of flagsHalfLJ pPair 1 0 0 0
        (interactOf flagsHalfLJ pPair 0 0 0) = 0 :=
  ⟨rfl, rfl, by decide,
    (C8_half_lj_invariant flagsHalfLJ pPair 1 0 0 0 0 0 zeroState rfl rfl
      (by decide)).1⟩

theorem pPair_d0 : dOf pPair 1 0 0 0 = -(1 / 2) := by
  norm_num [dOf, pPair]

theorem pPair_d1 : dOf pPair 1 0 0 1 = 0 := by
  norm_num [dOf, pPair]

theorem pPair_d2 : dOf pPair 1 0 0 2 = 0 := by
  norm_num [dOf, pPair]

theorem pPair_UNROLLJ : pPair.UNROLLJ = 1 := rfl

theorem pPair_nbfp (n : ℕ) : pPair.nbfp n = 0 := rfl

theorem pPair_type (n : ℕ) : pPair.type n = 0 := rfl

theorem pPair_qi (n : ℕ) : pPair.qi n = 1 := rfl

theorem pPair_q (n : ℕ) : pPair.q n = if n = 0 then 1 else -1 := rfl

theorem pPair_k_rf2 : pPair.k_rf2 = 0 := rfl

theorem pPair_invsqrt : pPair.invsqrt (rsqOf pPair 1 0 0) = 2 := by
  rw [pPair_rsq]
  norm_num [pPair]

theorem pPair_fscal : fscalOf flagsRFNoExcl pPair 1 0 0 0 1 = -8 := by
  simp only [fscalOf, fcoulOf, Vvdw6Of, Vvdw12Of, ljActive, flagsRFNoExcl,
    pPair_invsqrt, pPair_nbfp, pPair_type, pPair_qi, pPair_q, pPair_k_rf2,
    pPair_UNROLLJ]
  norm_num

theorem pPair_evaluates : evaluatesPair flagsRFNoExcl pPair 1 0 0 0 0 := by
  refine ⟨?_, ?_, pPair_in_range, ?_⟩
  · rintro ⟨hc, -⟩
    exact absurd hc (by decide)
  · rintro ⟨hc, -⟩
    exact absurd hc (by decide)
  · rintro ⟨hc, -⟩
    exact absurd hc (by decide)

theorem clusterPair_pPair_run :
    clusterPairKernel flagsRFNoExcl pPair 1 0 0 0 zeroState =
      evalPair flagsRFNoExcl pPair 1 0 0 0 1 zeroState := by
  have h1 : clusterPairKernel flagsRFNoExcl pPair 1 0 0 0 zeroState =
      pairBody flagsRFNoExcl pPair 1 0 0 0 0 0 zeroState := by
    rw [clusterPairKernel, show pPair.UNROLLI = 1 from rfl,
      show List.range 1 = [0] from rfl, List.foldl_cons, List.foldl_nil,
      innerLoopJ, show pPair.UNROLLJ = 1 from rfl,
      show List.range 1 = [0] from rfl, List.foldl_cons, List.foldl_nil]
  rw [h1, pairBody_eq_ite, if_pos pPair_evaluates]
  rfl

/-- C6 counterexample: for the concrete two-particle reaction-field system
`pPair` (charges +1 and -1, distance 1/2 < rcut, exact inverse square
root), running the kernel adds the force vector (4, 0, 0) to particle 0's
accumulator and subtracts it from particle 1's slot, so the applied force
magnitude is 4; the spec's formula `qq*(rinv*rinvsq - k_rf2)*rinv`
evaluates to -16, and 4 is neither -16 nor 16. -/
theorem C6_counterexample :
    (clusterPairKernel flagsRFNoExcl pPair 1 0 0 0 zeroState).fi 0 = 4 ∧
    (clusterPairKernel flagsRFNoExcl pPair 1 0 0 0 zeroState).fi 1 = 0 ∧
    (clusterPairKernel flagsRFNoExcl pPair 1 0 0 0 zeroState).fi 2 = 0 ∧
    (clusterPairKernel flagsRFNoExcl pPair 1 0 0 0 zeroState).f 3 = -4 ∧
    pPair.qi 0 * pPair.q 1 *
        (pPair.invsqrt (rsqOf pPair 1 0 0) *
            (pPair.invsqrt (rsqOf pPair 1 0 0) *
              pPair.invsqrt (rsqOf pPair 1 0 0)) -
          pPair.k_rf2) * pPair.invsqrt (rsqOf pPair 1 0 0) = -16 ∧
    ((4 : ℚ) ≠ -16 ∧ (4 : ℚ) ≠ 16) := by
  rw [clusterPair_pPair_run]
  refine ⟨?_, ?_, ?_, ?_, ?_, by norm_num, by norm_num⟩
  · have h := evalPair_fi_apply flagsRFNoExcl pPair 1 0 0 0 1 zeroState 0
      (by omega)
    rw [show (0 : ℕ) * 3 + 0 = 0 from rfl] at h
    rw [h, pPair_fscal, pPair_d0]
    norm_num [zeroState]
  · have h := evalPair_fi_apply flagsRFNoExcl pPair 1 0 0 0 1 zeroState 1
      (by omega)
    rw [show (0 : ℕ) * 3 + 1 = 1 from rfl] at h
    rw [h, pPair_fscal, pPair_d1]
    norm_num [zeroState]
  · have h := evalPair_fi_apply flagsRFNoExcl pPair 1 0 0 0 1 zeroState 2
      (by omega)
    rw [show (0 : ℕ) * 3 + 2 = 2 from rfl] at h
    rw [h, pPair_fscal, pPair_d2]
    norm_num [zeroState]
  · have h := evalPair_f_apply flagsRFNoExcl pPair 1 0 0 0 1 zeroState 0
      (by omega)
    rw [show ((1 : ℕ) * pPair.UNROLLJ + 0) * 3 + 0 = 3 from rfl] at h
    rw [h, pPair_fscal, pPair_d0]
    norm_num [zeroState]
  · simp only [pPair_invsqrt, pPair_qi, pPair_q, pPair_k_rf2]
    norm_num

/-- C6 (amended): for a two-particle reaction-field scenario (RF Coulomb
kernel without exclusion checking, vanishing LJ coefficients for the pair,
charges q1 = 1 and q2 = -1, rsq < rcut2), the per-pair Coulomb force
scalar is `fcoul = qq*(interact*rinv*rinvsq - k_rf2)` as the spec states,
and the squared magnitude of the force vector applied to each particle is
`fcoul^2 * rsq` — the force magnitude is `|fcoul|*r` (equivalently
`|qq*(rinv*rinvsq - k_rf2)|*rsq*rinv` for an exact inverse square root),
not `qq*(rinv*rinvsq - k_rf2)*rinv`. -/
theorem C6_single_pair_rf (p : KParams) (cj ci_sh excl ci i j : ℕ)
    (st : KState)
    (_hq1 : p.qi i = 1)
    (_hq2 : p.q (cj * p.UNROLLJ + j) = -1)
    (hb6 : p.nbfp (p.type (ci * p.UNROLLI + i) * p.ntype2 +
        p.type (cj * p.UNROLLJ + j) * 2) = 0)
    (hb12 : p.nbfp (p.type (ci * p.UNROLLI + i) * p.ntype2 +
        p.type (cj * p.UNROLLJ + j) * 2 + 1) = 0)
    (hin : rsqOf p cj i j < p.rcut2) :
    fcoulOf flagsRFNoExcl p cj ci i j 1 =
      p.qi i * p.q (cj * p.UNROLLJ + j) *
        (1 * p.invsqrt (rsqOf p cj i j) *
            (p.invsqrt (rsqOf p cj i j) * p.invsqrt (rsqOf p cj i j)) -
          p.k_rf2) ∧
    ((pairBody flagsRFNoExcl p cj ci_sh excl ci i j st).fi (i * 3 + 0) -
          st.fi (i * 3 + 0)) ^ 2 +
        ((pairBody flagsRFNoExcl p cj ci_sh excl ci i j st).fi (i * 3 + 1) -
          st.fi (i * 3 + 1)) ^ 2 +
        ((pairBody flagsRFNoExcl p cj ci_sh excl ci i j st).fi (i * 3 + 2) -
          st.fi (i * 3 + 2)) ^ 2 =
      fcoulOf flagsRFNoExcl p cj ci i j 1 ^ 2 * rsqOf p cj i j ∧
    ((pairBody flagsRFNoExcl p cj ci_sh excl ci i j st).f
            ((cj * p.UNROLLJ + j) * 3 + 0) -
          st.f ((cj * p.UNROLLJ + j) * 3 + 0)) ^ 2 +
        ((pairBody flagsRFNoExcl p cj ci_sh excl ci i j st).f
            ((cj * p.UNROLLJ + j) * 3 + 1) -
          st.f ((cj * p.UNROLLJ + j) * 3 + 1)) ^ 2 +
        ((pairBody flagsRFNoExcl p cj ci_sh excl ci i j st).f
            ((cj * p.UNROLLJ + j) * 3 + 2) -
          st.f ((cj * p.UNROLLJ + j) * 3 + 2)) ^ 2 =
      fcoulOf flagsRFNoExcl p cj ci i j 1 ^ 2 * rsqOf p cj i j := by
  have hEv : evaluatesPair flagsRFNoExcl p cj ci_sh excl i j := by
    refine ⟨?_, ?_, hin, ?_⟩
    · rintro ⟨hc, -⟩
      exact absurd hc (by decide)
    · rintro ⟨hc, -⟩
      exact absurd hc (by decide)
    · rintro ⟨hc, -⟩
      exact absurd hc (by decide)
  have hB : pairBody flagsRFNoExcl p cj ci_sh excl ci i j st =
      evalPair flagsRFNoExcl p cj ci i j 1 st := by
    rw [pairBody_eq_ite, if_pos hEv]
    rfl
  have hlj : ljActive flagsRFNoExcl p i = true := by
    simp [ljActive, flagsRFNoExcl]
  have hfs : fscalOf flagsRFNoExcl p cj ci i j 1 =
      fcoulOf flagsRFNoExcl p cj ci i j 1 := by
    simp [fscalOf, Vvdw6Of, Vvdw12Of, hlj, flagsRFNoExcl, hb6, hb12]
  refine ⟨rfl, ?_, ?_⟩
  · rw [hB,
      evalPair_fi_apply flagsRFNoExcl p cj ci i j 1 st 0 (by omega),
      evalPair_fi_apply flagsRFNoExcl p cj ci i j 1 st 1 (by omega),
      evalPair_fi_apply flagsRFNoExcl p cj ci i j 1 st 2 (by omega),
      hfs, rsqOf]
    ring
  · rw [hB,
      evalPair_f_apply flagsRFNoExcl p cj ci i j 1 st 0 (by omega),
      evalPair_f_apply flagsRFNoExcl p cj ci i j 1 st 1 (by omega),
      evalPair_f_apply flagsRFNoExcl p cj ci i j 1 st 2 (by omega),
      hfs, rsqOf]
    ring

theorem C6_single_pair_rf_witness :
    pPair.qi 0 = 1 ∧ pPair.q (1 * pPair.UNROLLJ + 0) = -1 ∧
      rsqOf pPair 1 0 0 < pPair.rcut2 ∧
      fcoulOf flagsRFNoExcl pPair 1 0 0 0 1 =
        pPair.qi 0 * pPair.q (1 * pPair.UNROLLJ + 0) *
          (1 * pPair.invsqrt (rsqOf pPair 1 0 0) *
              (pPair.invsqrt (rsqOf pPair 1 0 0) *
                pPair.invsqrt (rsqOf pPair 1 0 0)) -
            pPair.k_rf2) :=
  ⟨rfl, rfl, pPair_in_range,
    (C6_single_pair_rf pPair 1 0 0 0 0 0 zeroState rfl rfl rfl rfl
      pPair_in_range).1⟩

/-- Modelled from the spec: the electrostatics self-correction term for an
excluded pair under reaction-field, added by the separate excluded-pair
energy pass that is outside this kernel fragment ("when energies and/or
virial is required we calculate them separately").  Per the spec's RF
energy formula `qq*(interact*rinv + k_rf*rsq - c_rf)` with `interact = 0`,
the constant term that must be explicitly cancelled for an excluded pair
is `qq*(k_rf*rsq - c_rf)`. -/
def rfExclEnergyCorrection (p : KParams) (qq rsq : ℚ) : ℚ :=
  qq * (p.k_rf * rsq - p.c_rf)

/-- C7: for an excluded in-range pair under reaction-field, Mode B
(`interact = 0` evaluation) adds exactly the spec-modelled self-correction
term `qq*(k_rf*rsq - c_rf)` to the Coulomb energy accumulator and nothing
to the van der Waals accumulator; Mode A (fast skip) contributes 0 from
the kernel and the same correction from the separate pass, so the two
modes produce identical total energy. -/
theorem C7_mode_equivalence (p : KParams) (cj ci_sh excl ci i j : ℕ)
    (st : KState) (hbit : bitOf p excl i j = 0)
    (hdiag : ¬(cj = ci_sh ∧ j ≤ i))
    (hin : rsqOf p cj i j < p.rcut2)
    (heps : 1 / 1000000000000 ≤ rsqOf p cj i j) :
    (pairBody flagsRFExclEner p cj ci_sh excl ci i j st).Vc_ci - st.Vc_ci =
      0 + rfExclEnergyCorrection p (p.qi i * p.q (cj * p.UNROLLJ + j))
        (rsqOf p cj i j) ∧
    (pairBody flagsRFExclEner p cj ci_sh excl ci i j st).Vvdw_ci -
      st.Vvdw_ci = 0 := by
  have hB := pairBody_excluded_modeB flagsRFExclEner p cj ci_sh excl ci i j st
    (by decide) hbit hdiag hin heps
  constructor
  · rw [hB, evalPair_Vc_ci]
    simp only [show flagsRFExclEner.calcCoulomb = true from rfl,
      show flagsRFExclEner.calcEnergies = true from rfl, Bool.and_self,
      if_pos]
    simp [vcoulOf, rfExclEnergyCorrection, flagsRFExclEner]
  · rw [hB, evalPair_Vvdw_ci]
    simp [Vvdw6Of, Vvdw12Of]

theorem C7_mode_equivalence_witness :
    bitOf pPair 0 0 0 = 0 ∧ ¬((1 : ℕ) = 0 ∧ (0 : ℕ) ≤ 0) ∧
      (pairBody flagsRFExclEner pPair 1 0 0 0 0 0 zeroState).Vc_ci -
          zeroState.Vc_ci =
        0 + rfExclEnergyCorrection pPair
          (pPair.qi 0 * pPair.q (1 * pPair.UNROLLJ + 0))
          (rsqOf pPair 1 0 0) :=
  ⟨by decide, by decide,
    (C7_mode_equivalence pPair 1 0 0 0 0 0 zeroState (by decide) (by decide)
      pPair_in_range pPair_not_tiny).1⟩

end Nbnxn

namespace SmCompare

/-- Comparison operator for comparison expressions (`e_comparison_t`). -/
inductive e_comparison where
  | CMP_INVALID
  | CMP_LESS
  | CMP_LEQ
  | CMP_GTR
  | CMP_GEQ
  | CMP_EQUAL
  | CMP_NEQ
  deriving DecidableEq

open e_comparison

/-- Gromacs exceptions thrown by the comparison method setup via
`GMX_THROW` (`gmx::NotImplementedError`, `gmx::InternalError`), carrying
the reason string. -/
inductive GmxException where
  | NotImplementedError (reason : String)
  | InternalError (reason : String)
  deriving DecidableEq

/-- Comparison expression operand value (`t_compare_value`): the
`CMP_DYNAMICVAL` and `CMP_REALVAL` flags and the integer/real value
arrays.  (`CMP_SINGLEVAL` and the allocation flags only affect evaluation
indexing and memory management and are not modelled.) -/
structure t_compare_value where
  dynamic : Bool
  isReal : Bool
  i : List ℤ
  r : List ℚ
  deriving DecidableEq

/-- Data for comparison expression evaluation (`t_methoddata_compare`):
the parsed operator and the two operand values. -/
structure t_methoddata_compare where
  cmpt : e_comparison
  left : t_compare_value
  right : t_compare_value
  deriving DecidableEq

/-- `comparison_type`: the comparison type corresponding to the first two
characters of the operator string (`str[0]` and `str[1]`; for a
one-character operator `c1` is the terminating NUL character, which is not
`=`). -/
def comparison_type (c0 c1 : Char) : e_comparison :=
  if c0 = '<' then (if c1 = '=' then CMP_LEQ else CMP_LESS)
  else if c0 = '>' then (if c1 = '=' then CMP_GEQ else CMP_GTR)
  else if c0 = '=' then (if c1 = '=' then CMP_EQUAL else CMP_INVALID)
  else if c0 = '!' then (if c1 = '=' then CMP_NEQ else CMP_INVALID)
  else CMP_INVALID

/-- `reverse_comparison_type`: the comparison operator that equals the
given one when the left and right sides are interchanged. -/
def reverse_comparison_type (t : e_comparison) : e_comparison :=
  match t with
  | CMP_LESS => CMP_GTR
  | CMP_LEQ => CMP_GEQ
  | CMP_GTR => CMP_LESS
  | CMP_GEQ => CMP_LEQ
  | _ => t

/-- `convert_int_real`: converts the first `n` integer values of an
operand to floating point and marks the operand real. -/
def convert_int_real (n : ℕ) (val : t_compare_value) : t_compare_value :=
  { val with r := (val.i.take n).map (fun z => (z : ℚ)), isReal := true }

/-- The conversion loop of `convert_real_int` over the real values, with
the operator already adjusted for the operand side: rounds with `ceil` for
`CMP_LESS`/`CMP_GEQ` and with `floor` for `CMP_GTR`/`CMP_LEQ` (the C code
casts the integral `ceil`/`floor` result to `int`), and throws
`NotImplementedError` for `CMP_EQUAL`/`CMP_NEQ` and `InternalError` for
`CMP_INVALID`. -/
def convert_loop (cmpt : e_comparison) (rs : List ℚ) :
    Except GmxException (List ℤ) :=
  match rs with
  | [] => Except.ok []
  | r :: rest =>
    match cmpt with
    | CMP_LESS | CMP_GEQ => (convert_loop cmpt rest).map (fun l => ⌈r⌉ :: l)
    | CMP_GTR | CMP_LEQ => (convert_loop cmpt rest).map (fun l => ⌊r⌋ :: l)
    | CMP_EQUAL | CMP_NEQ =>
        Except.error (GmxException.NotImplementedError
          "Equality comparison between dynamic integer and static real expressions not implemented")
    | CMP_INVALID =>
        Except.error (GmxException.InternalError "Invalid comparison type")

/-- `convert_real_int`: converts the first `n` real values of an operand
to integers, rounded so that the same comparison operator can be used;
`bRight` tells whether the operand is on the right-hand side of the
operator (if not, the operator is reversed first). -/
def convert_real_int (n : ℕ) (val : t_compare_value) (cmpt : e_comparison)
    (bRight : Bool) : Except GmxException t_compare_value :=
  let cmpt' := if !bRight then reverse_comparison_type cmpt else cmpt
  (convert_loop cmpt' (val.r.take n)).map
    (fun iv => { val with i := iv, isReal := false })

/-- `init_compare`: setup-time initialization of the comparison method.
`n1`/`n2` are the value counts reported by `init_comparison_value` for the
left/right operand.  Parses the operator and converts the operands to a
common type: with one real and one integer operand, a static integer side
is promoted to real (`convert_int_real`); a dynamic/dynamic mixed pair is
left as is (int on the left is moved to the right with the operator
reversed); otherwise the static real side is demoted to integer with
`convert_real_int`, which throws for `==`/`!=`. -/
def init_compare (n1 n2 : ℕ) (left right : t_compare_value) (c0 c1 : Char) :
    Except GmxException t_methoddata_compare :=
  if n1 = 0 ∨ n2 = 0 then
    Except.error
      (GmxException.InternalError "One of the values for comparison missing")
  else
    let cmpt := comparison_type c0 c1
    if cmpt = CMP_INVALID then
      Except.error (GmxException.InternalError "Invalid comparison type")
    else if left.isReal ∧ ¬(right.isReal = true) then
      if left.dynamic ∧ right.dynamic then
        Except.ok ⟨cmpt, left, right⟩
      else if ¬(right.dynamic = true) then
        Except.ok ⟨cmpt, left, convert_int_real n2 right⟩
      else
        (convert_real_int n1 left cmpt false).map (fun l => ⟨cmpt, l, right⟩)
    else if ¬(left.isReal = true) ∧ right.isReal then
      if left.dynamic ∧ right.dynamic then
        Except.ok ⟨reverse_comparison_type cmpt,
          ⟨right.dynamic, right.isReal, [], right.r⟩,
          ⟨left.dynamic, left.isReal, left.i, []⟩⟩
      else if ¬(left.dynamic = true) then
        Except.ok ⟨cmpt, convert_int_real n1 left, right⟩
      else
        (convert_real_int n2 right cmpt true).map (fun r => ⟨cmpt, left, r⟩)
    else
      Except.ok ⟨cmpt, left, right⟩

/-- The per-element acceptance test of `evaluate_compare_int`
(the `switch (d->cmpt)` on the two integer operands `a`, `b`). -/
def evaluate_compare_int_accept (cmpt : e_comparison) (a b : ℤ) : Bool :=
  match cmpt with
  | CMP_INVALID => false
  | CMP_LESS => decide (a < b)
  | CMP_LEQ => decide (a ≤ b)
  | CMP_GTR => decide (a > b)
  | CMP_GEQ => decide (a ≥ b)
  | CMP_EQUAL => decide (a = b)
  | CMP_NEQ => decide (a ≠ b)

/-- The per-element acceptance test of `evaluate_compare_real` on the
(promoted) real operands `a`, `b`; equality uses the external
`gmx_within_tol`, passed here as the parameter `withinTol`. -/
def evaluate_compare_real_accept (withinTol : ℚ → ℚ → Bool)
    (cmpt : e_comparison) (a b : ℚ) : Bool :=
  match cmpt with
  | CMP_INVALID => false
  | CMP_LESS => decide (a < b)
  | CMP_LEQ => decide (a ≤ b)
  | CMP_GTR => decide (a > b)
  | CMP_GEQ => decide (a ≥ b)
  | CMP_EQUAL => withinTol a b
  | CMP_NEQ => !(withinTol a b)

/-- A dynamic integer-valued operand (e.g. a per-frame selection value). -/
def dynInt (vals : List ℤ) : t_compare_value :=
  ⟨true, false, vals, []⟩

/-- A static real-valued operand (e.g. a constant in the selection). -/
def staticReal (vals : List ℚ) : t_compare_value :=
  ⟨false, true, [], vals⟩

theorem convert_loop_order_ok (cmpt : e_comparison)
    (h : cmpt = CMP_LESS ∨ cmpt = CMP_LEQ ∨ cmpt = CMP_GTR ∨ cmpt = CMP_GEQ)
    (rs : List ℚ) : ∃ l, convert_loop cmpt rs = Except.ok l := by
  induction rs with
  | nil => exact ⟨[], rfl⟩
  | cons r rest ih =>
    obtain ⟨l, hl⟩ := ih
    rcases h with rfl | rfl | rfl | rfl
    · exact ⟨⌈r⌉ :: l, by simp [convert_loop, hl, Except.map]⟩
    · exact ⟨⌊r⌋ :: l, by simp [convert_loop, hl, Except.map]⟩
    · exact ⟨⌊r⌋ :: l, by simp [convert_loop, hl, Except.map]⟩
    · exact ⟨⌈r⌉ :: l, by simp [convert_loop, hl, Except.map]⟩

/-- C9: setting up the comparison with a dynamic integer operand on one
side and a static real operand on the other fails fast at setup time
(`init_compare`), with a `NotImplementedError`, when the operator is `==`
or `!=` — before any per-element evaluation can run; for the four order
operators `<`, `<=`, `>`, `>=` the same operand combination is accepted. -/
theorem C9_compare_fail_fast (li : List ℤ) (rv : List ℚ) (c0 c1 : Char)
    (hi : li ≠ []) (hr : rv ≠ []) :
    ((comparison_type c0 c1 = CMP_EQUAL ∨ comparison_type c0 c1 = CMP_NEQ) →
      init_compare li.length rv.length (dynInt li) (staticReal rv) c0 c1 =
          Except.error (GmxException.NotImplementedError
            "Equality comparison between dynamic integer and static real expressions not implemented") ∧
        init_compare rv.length li.length (staticReal rv) (dynInt li) c0 c1 =
          Except.error (GmxException.NotImplementedError
            "Equality comparison between dynamic integer and static real expressions not implemented")) ∧
    ((comparison_type c0 c1 = CMP_LESS ∨ comparison_type c0 c1 = CMP_LEQ ∨
        comparison_type c0 c1 = CMP_GTR ∨ comparison_type c0 c1 = CMP_GEQ) →
      (∃ d, init_compare li.length rv.length (dynInt li) (staticReal rv)
          c0 c1 = Except.ok d) ∧
        ∃ d, init_compare rv.length li.length (staticReal rv) (dynInt li)
          c0 c1 = Except.ok d) := by
  obtain ⟨x, xs, rfl⟩ : ∃ x xs, rv = x :: xs := by
    cases rv with
    | nil => exact absurd rfl hr
    | cons x xs => exact ⟨x, xs, rfl⟩
  obtain ⟨y, ys, rfl⟩ : ∃ y ys, li = y :: ys := by
    cases li with
    | nil => exact absurd rfl hi
    | cons y ys => exact ⟨y, ys, rfl⟩
  constructor
  · rintro (ht | ht) <;>
      constructor <;>
        simp [init_compare, dynInt, staticReal, convert_real_int,
          convert_loop, ht, reverse_comparison_type, Except.map]
  · rintro (ht | ht | ht | ht) <;>
    · have h1 := convert_loop_order_ok
        (reverse_comparison_type (comparison_type c0 c1)) (by rw [ht]; simp
          [reverse_comparison_type]) (x :: xs)
      have h2 := convert_loop_order_ok (comparison_type c0 c1)
        (by rw [ht]; simp) (x :: xs)
      obtain ⟨l1, hl1⟩ := h1
      obtain ⟨l2, hl2⟩ := h2
      rw [ht] at hl1 hl2
      simp only [reverse_comparison_type] at hl1
      constructor <;>
        simp [init_compare, dynInt, staticReal, convert_real_int,
          reverse_comparison_type, ht, hl1, hl2, Except.map]

theorem C9_compare_fail_fast_witness :
    (comparison_type '=' '=' = CMP_EQUAL ∨
        comparison_type '=' '=' = CMP_NEQ) ∧
      init_compare [(3 : ℤ)].length [(1 / 2 : ℚ)].length (dynInt [(3 : ℤ)])
          (staticReal [(1 / 2 : ℚ)]) '=' '=' =
        Except.error (GmxException.NotImplementedError
          "Equality comparison between dynamic integer and static real expressions not implemented") :=
  ⟨Or.inl rfl,
    ((C9_compare_fail_fast [(3 : ℤ)] [(1 / 2 : ℚ)] '=' '='
        (List.cons_ne_nil 3 []) (List.cons_ne_nil (1 / 2) [])).1
      (Or.inl rfl)).1⟩

/-- C10: the ceil/floor rounding performed by `convert_real_int` preserves
the comparison semantics for the order operators: for each of `<`, `<=`,
`>`, `>=`, every integer `a` and every real `r`, the pure-integer
acceptance test on the converted operand decides exactly the same boolean
as the exact mixed real comparison, both when the real is the right
operand and (after the operator is reversed internally) when it is the
left operand. -/
theorem C10_rounding_preserves (wt : ℚ → ℚ → Bool) (cmpt : e_comparison)
    (a : ℤ) (r : ℚ)
    (h : cmpt = CMP_LESS ∨ cmpt = CMP_LEQ ∨ cmpt = CMP_GTR ∨
      cmpt = CMP_GEQ) :
    (∃ r' : ℤ, convert_real_int 1 (staticReal [r]) cmpt true =
        Except.ok ⟨false, false, [r'], [r]⟩ ∧
      (evaluate_compare_int_accept cmpt a r' = true ↔
        evaluate_compare_real_accept wt cmpt (a : ℚ) r = true)) ∧
    (∃ r'' : ℤ, convert_real_int 1 (staticReal [r]) cmpt false =
        Except.ok ⟨false, false, [r''], [r]⟩ ∧
      (evaluate_compare_int_accept cmpt r'' a = true ↔
        evaluate_compare_real_accept wt cmpt r (a : ℚ) = true)) := by
  rcases h with rfl | rfl | rfl | rfl
  · refine ⟨⟨⌈r⌉, ?_, ?_⟩, ⟨⌊r⌋, ?_, ?_⟩⟩
    · simp [convert_real_int, convert_loop, staticReal, Except.map]
    · simp [evaluate_compare_int_accept, evaluate_compare_real_accept,
        Int.lt_ceil]
    · simp [convert_real_int, convert_loop, staticReal,
        reverse_comparison_type, Except.map]
    · simp [evaluate_compare_int_accept, evaluate_compare_real_accept,
        Int.floor_lt]
  · refine ⟨⟨⌊r⌋, ?_, ?_⟩, ⟨⌈r⌉, ?_, ?_⟩⟩
    · simp [convert_real_int, convert_loop, staticReal, Except.map]
    · simp [evaluate_compare_int_accept, evaluate_compare_real_accept,
        Int.le_floor]
    · simp [convert_real_int, convert_loop, staticReal,
        reverse_comparison_type, Except.map]
    · simp [evaluate_compare_int_accept, evaluate_compare_real_accept,
        Int.ceil_le]
  · refine ⟨⟨⌊r⌋, ?_, ?_⟩, ⟨⌈r⌉, ?_, ?_⟩⟩
    · simp [convert_real_int, convert_loop, staticReal, Except.map]
    · simp [evaluate_compare_int_accept, evaluate_compare_real_accept,
        Int.floor_lt]
    · simp [convert_real_int, convert_loop, staticReal,
        reverse_comparison_type, Except.map]
    · simp [evaluate_compare_int_accept, evaluate_compare_real_accept,
        Int.lt_ceil]
  · refine ⟨⟨⌈r⌉, ?_, ?_⟩, ⟨⌊r⌋, ?_, ?_⟩⟩
    · simp [convert_real_int, convert_loop, staticReal, Except.map]
    · simp [evaluate_compare_int_accept, evaluate_compare_real_accept,
        Int.ceil_le]
    · simp [convert_real_int, convert_loop, staticReal,
        reverse_comparison_type, Except.map]
    · simp [evaluate_compare_int_accept, evaluate_compare_real_accept,
        Int.le_floor]

theorem C10_rounding_preserves_witness :
    (CMP_LESS = CMP_LESS ∨ CMP_LESS = CMP_LEQ ∨ CMP_LESS = CMP_GTR ∨
        CMP_LESS = CMP_GEQ) ∧
      ∃ r' : ℤ, convert_real_int 1 (staticReal [(1 / 2 : ℚ)]) CMP_LESS true =
          Except.ok ⟨false, false, [r'], [(1 / 2 : ℚ)]⟩ ∧
        (evaluate_compare_int_accept CMP_LESS 0 r' = true ↔
          evaluate_compare_real_accept (fun _ _ => false) CMP_LESS
            ((0 : ℤ) : ℚ) (1 / 2) = true) :=
  ⟨Or.inl rfl,
    (C10_rounding_preserves (fun _ _ => false) CMP_LESS 0 (1 / 2)
      (Or.inl rfl)).1⟩

end SmCompare
